import Mathlib

/-!
Shallow embedding of the ipybible similarity-search core
(src/ipybible/bible.py, src/ipybible/misc.py, src/ipybible/similarity.py).
Python floats are modelled as real numbers (exactly where claims only use
order and field structure), Python dicts as insertion-ordered association
lists, and raised exceptions as Except values.
-/

namespace Ipybible

/-- Error values raised by the embedded code: BibleNotFound (bible.py),
ValueError (sklearn CountVectorizer on an empty vocabulary) and the
IndexError of list indexing. -/
inductive Err where
  | bibleNotFound (msg : String)
  | valueError (msg : String)
  | indexError
deriving Repr, DecidableEq

/-- Python dict write d[k] = v on an insertion-ordered association list:
an existing key keeps its position and gets the new value, a new key is
appended at the end. -/
def assocSet {α β : Type} [BEq α] : List (α × β) → α → β → List (α × β)
  | [], k, v => [(k, v)]
  | (k', v') :: rest, k, v =>
    if k' == k then (k', v) :: rest else (k', v') :: assocSet rest k v

/-- Python dict built from a list of key-value pairs, as by a dict
comprehension or repeated dict writes: the first occurrence of a key
fixes its position and the last written value wins. -/
def pyDict {α β : Type} [BEq α] (l : List (α × β)) : List (α × β) :=
  l.foldl (fun d kv => assocSet d kv.1 kv.2) []

/-- Rounding of a value to 3 decimal places, modelling the
float("{0:.3f}".format(v)) step of misc.normalize; Python floats are
modelled as exact field values, and the tie-breaking direction at an
exact half-thousandth is abstracted by the rounding function. -/
def roundTo3 {α : Type} [LinearOrderedField α] [FloorRing α] (x : α) : α :=
  ((round (x * 1000) : ℤ) : α) / 1000

/-- misc.normalize: returns the dict unchanged when the value total is 0
or there are fewer than 10 entries, and otherwise divides every value by
the total and rounds it to 3 decimal places, keeping the keys.  The
iterator guard at the top of the Python function never fires for a dict
argument and is not modelled. -/
def normalize {α : Type} [LinearOrderedField α] [FloorRing α]
    (d : List (String × α)) : List (String × α) :=
  if (d.map Prod.snd).sum = 0 ∨ d.length < 10 then d
  else d.map fun kv => (kv.1, roundTo3 (kv.2 / (d.map Prod.snd).sum))

/-- misc.sort_dict with by="value" and reverse=True: a stable sort of the
dict items from the highest to the lowest value. -/
def sort_dict {α β : Type} [LinearOrder β] (d : List (α × β)) : List (α × β) :=
  d.mergeSort fun a b => decide (b.2 ≤ a.2)

/-- Python str.lower, modelled characterwise (ASCII fragment). -/
def lowerStr (s : String) : String := String.mk (s.toList.map Char.toLower)

/-- Whitespace characters stripped by Python str.strip. -/
def isSpaceChar (c : Char) : Bool :=
  c == ' ' || c == '\t' || c == '\n' || c == '\r' || c == '\x0b' || c == '\x0c'

/-- Python str.strip: removes leading and trailing whitespace. -/
def trimStr (s : String) : String :=
  String.mk (((s.toList.dropWhile isSpaceChar).reverse.dropWhile isSpaceChar).reverse)

/-- Word characters of the CountVectorizer token regex (the ASCII
fragment of its word-character class). -/
def isWordChar (c : Char) : Bool := c.isAlphanum || c == '_'

/-- Tokens of the default CountVectorizer analyzer used by
similarity.vectorize: maximal runs of word characters that are at least
two characters long. -/
def tokens (s : String) : List String :=
  ((s.toList.splitOnP fun c => !isWordChar c).filter
    fun r => 2 ≤ r.length).map fun r => String.mk r

/-- Contiguous n-grams of a token list, joined with single spaces. -/
def ngrams (n : Nat) (toks : List String) : List String :=
  (List.range (toks.length + 1 - n)).map fun i =>
    String.intercalate " " ((toks.drop i).take n)

/-- All n-grams of one document for the ngram_range=(2, 3) of
similarity.vectorize: its 2-grams followed by its 3-grams. -/
def docNgrams (s : String) : List String :=
  ngrams 2 (tokens s) ++ ngrams 3 (tokens s)

/-- One coordinate of the count vector produced by similarity.vectorize:
the number of occurrences of an n-gram in a document. -/
def gramCount (g : String) (s : String) : Nat := (docNgrams s).count g

/-- Joint vocabulary of the two documents passed to similarity.vectorize:
CountVectorizer is fitted on exactly these two texts. -/
def vocab (a b : String) : Finset String :=
  (docNgrams a).toFinset ∪ (docNgrams b).toFinset

/-- Dot product of the two count vectors over the joint vocabulary. -/
def dotCount (a b : String) : Nat :=
  Finset.sum (vocab a b) fun g => gramCount g a * gramCount g b

/-- Sum of squares of one count vector; coordinates outside the
document's own n-grams are zero, so the sum ranges over those. -/
def sqNorm (a : String) : Nat :=
  Finset.sum (docNgrams a).toFinset fun g => gramCount g a * gramCount g a

/-- similarity.cosine_sim: lowercases the two texts, jointly vectorizes
them with 2-gram and 3-gram counts, and returns the cosine of the two
count vectors.  CountVectorizer raises ValueError when the two documents
together produce no n-gram (empty vocabulary); sklearn cosine_similarity
maps a zero-norm vector to the zero vector instead of dividing by its
norm, which coincides with division by zero in the real numbers. -/
noncomputable def cosine_sim (strA strB : String) : Except Err ℝ :=
  if vocab (lowerStr strA) (lowerStr strB) = ∅ then
    .error (.valueError "empty vocabulary")
  else .ok ((dotCount (lowerStr strA) (lowerStr strB) : ℝ) /
    (Real.sqrt (sqNorm (lowerStr strA)) * Real.sqrt (sqNorm (lowerStr strB))))

structure Verse where
  number : Nat
  text : String
  language : String
deriving Repr, DecidableEq

structure Chapter where
  number : Nat
  language : String
  verses : List (Nat × Verse)
deriving Repr, DecidableEq

structure Book where
  name : String
  language : String
  chapters : List (Nat × Chapter)
deriving Repr, DecidableEq

/-- Chapter.add_verse: a verse number that is already present leaves the
chapter unchanged; otherwise a fresh Verse is stored that copies the
argument's number and text but carries the chapter's language. -/
def add_verse (c : Chapter) (v : Verse) : Chapter :=
  if (c.verses.lookup v.number).isSome then c
  else { c with verses := c.verses ++ [(v.number, ⟨v.number, v.text, c.language⟩)] }

/-- Book.chapter: returns the stored chapter for the number; when the
number is absent an empty chapter with the book's language is created,
stored and returned.  The possibly updated book is returned alongside,
making the in-place mutation explicit. -/
def Book.chapter (b : Book) (n : Nat) : Chapter × Book :=
  match b.chapters.lookup n with
  | some c => (c, b)
  | none =>
    let c : Chapter := ⟨n, b.language, []⟩
    (c, { b with chapters := b.chapters ++ [(n, c)] })

/-- Book mapping of one Bible instance (Bible._books). -/
abbrev Books := List (String × Book)

/-- Bible.book: returns the stored book for the name; when the name is
absent an empty book with the bible's language is created, stored and
returned.  The possibly updated book mapping is returned alongside. -/
def bible_book (books : Books) (lang name : String) : Book × Books :=
  match books.lookup name with
  | some bk => (bk, books)
  | none =>
    let bk : Book := ⟨name, lang, []⟩
    (bk, books ++ [(name, bk)])

/-- Chapter-to-verse data of one fetched book with the JSON string keys
already converted to numbers: for every chapter number the list of
(verse number, raw verse text) pairs. -/
abbrev ChapterData := List (Nat × List (Nat × String))

/-- One step of the inner loop of Bible.populate_book:
self.book(book).chapter(int(chapter_num)).add_verse(verse) with
verse = Verse(int(verse_num), verse_text.strip(), self.language),
written as an explicit read-modify-write of the nested mappings. -/
def addVerseToBooks (books : Books) (lang bookName : String)
    (cn vn : Nat) (txt : String) : Books :=
  let bb := bible_book books lang bookName
  let cb := bb.1.chapter cn
  let ch1 := add_verse cb.1 ⟨vn, trimStr txt, lang⟩
  let bk2 := { cb.2 with chapters := assocSet cb.2.chapters cn ch1 }
  assocSet bb.2 bookName bk2

/-- Bible.populate_book over already-parsed chapter data. -/
def populate_book (books : Books) (lang bookName : String) (ctv : ChapterData) : Books :=
  ctv.foldl (fun bs cv =>
    cv.2.foldl (fun bs2 vt => addVerseToBooks bs2 lang bookName cv.1 vt.1 vt.2) bs) books

/-- Corpus snapshot cache (the diskcache Index keyed by version string;
only the version-keyed corpus entries are modelled). -/
abbrev CorpusCache := List (String × Books)

/-- Stripping of the callback envelope: resp.text[1:-2]. -/
def stripEnvelope (s : String) : String := (s.drop 1).dropRight 2

/-- Bible.retrieve_chapter_to_verse on an already-received response body:
a stripped body equal to "U" raises BibleNotFound, a body whose JSON
lacks the "book" key raises BibleNotFound, and otherwise the parsed
chapter data is returned.  The HTTP request and the JSON decoding are
external collaborators, abstracted into the response string and the
parse function. -/
def retrieve_chapter_to_verse (resp : String)
    (parseBook : String → Option ChapterData) : Except Err ChapterData :=
  if stripEnvelope resp = "U" then .error (.bibleNotFound "NULL result")
  else
    match parseBook (stripEnvelope resp) with
    | none => .error (.bibleNotFound "Error Book loaded")
    | some d => .ok d

/-- Modelled from the spec: the canonical 66-book list of
ipybible/books.py, a module that is not under src/; the spec fixes the
count (66 canonical books) and the repository tests use lowercase names
such as "genesis" and "psalms". -/
def BOOKS : List String :=
  ["genesis", "exodus", "leviticus", "numbers", "deuteronomy", "joshua",
   "judges", "ruth", "1samuel", "2samuel", "1kings", "2kings",
   "1chronicles", "2chronicles", "ezra", "nehemiah", "esther", "job",
   "psalms", "proverbs", "ecclesiastes", "songofsolomon", "isaiah",
   "jeremiah", "lamentations", "ezekiel", "daniel", "hosea", "joel",
   "amos", "obadiah", "jonah", "micah", "nahum", "habakkuk", "zephaniah",
   "haggai", "zechariah", "malachi", "matthew", "mark", "luke", "john",
   "acts", "romans", "1corinthians", "2corinthians", "galatians",
   "ephesians", "philippians", "colossians", "1thessalonians",
   "2thessalonians", "1timothy", "2timothy", "titus", "philemon",
   "hebrews", "james", "1peter", "2peter", "1john", "2john", "3john",
   "jude", "revelation"]

/-- Download loop of Bible.__post_init__: for every canonical book the
chapter data is fetched, the in-memory hierarchy is populated, and the
book mapping built so far is written to the corpus cache under the
version key; a fetch error propagates immediately, leaving the cache
with whatever was already written. -/
def build_books (fetch : String → Except Err ChapterData) (lang version : String) :
    List String → Books → CorpusCache → Except Err Books × CorpusCache
  | [], books, cache => (.ok books, cache)
  | b :: rest, books, cache =>
    match fetch b with
    | .error e => (.error e, cache)
    | .ok ctv =>
      let books1 := populate_book books lang b ctv
      build_books fetch lang version rest books1 (assocSet cache version books1)

/-- Bible.__post_init__: a cached version is loaded as is; otherwise the
books are downloaded and incrementally cached.  The eager clean_text
pass after a successful download only writes hash-keyed normalized-text
entries and does not touch the version-keyed corpus entries, so it is
not modelled here. -/
def bible_post_init (fetch : String → Except Err ChapterData)
    (cache : CorpusCache) (version lang : String) : Except Err Books × CorpusCache :=
  match cache.lookup version with
  | some bks => (.ok bks, cache)
  | none => build_books fetch lang version BOOKS [] cache

/-- Chapter data of a fetch result that is known to have succeeded. -/
def getOk : Except Err ChapterData → ChapterData
  | .ok d => d
  | .error _ => []

/-- Book mapping populated from a list of books whose fetches succeeded,
in list order (the successful prefix of the download loop). -/
def populate_list (fetch : String → Except Err ChapterData) (lang : String)
    (bs : List String) (books : Books) : Books :=
  bs.foldl (fun acc b => populate_book acc lang b (getOk (fetch b))) books

/-- Chapter data used by the concrete failing-fetch scenario. -/
def c2data : ChapterData := [(1, [(1, "aa bb")])]

/-- Remote source that knows only the book "genesis": every other book
fetch raises BibleNotFound, like a source missing some books. -/
def c2fetch : String → Except Err ChapterData := fun b =>
  if b = "genesis" then .ok c2data else .error (.bibleNotFound "NULL result")

/-- One-book bible fixture whose single chapter text equals the query
used against it. -/
def c3book : Book := ⟨"genesis", "EN", [(1, ⟨1, "EN", [(1, ⟨1, "aa bb", "EN"⟩)]⟩)]⟩

/-- One-book fixture whose single chapter text shares no n-gram with the
query used against it. -/
def c5book : Book := ⟨"genesis", "EN", [(1, ⟨1, "EN", [(1, ⟨1, "xx yy", "EN"⟩)]⟩)]⟩

/-- Chapter.text: the space-joined stripped verse texts in insertion
order. -/
def chapterText (c : Chapter) : String :=
  String.intercalate " " (c.verses.map fun kv => trimStr kv.2.text)

/-- Chapter.compute_sim: cosine similarity between the normalized query
and the normalized chapter text.  The spacy normalization pass and its
cache are external collaborators, abstracted into the function nt. -/
noncomputable def compute_sim (nt : String → String) (c : Chapter) (text : String) :
    Except Err ℝ :=
  cosine_sim (nt text) (nt (chapterText c))

/-- Entry list of the Book.chapter_to_similarity dict comprehension, in
chapter iteration order; the first raised error aborts the
comprehension. -/
noncomputable def chapter_sims (nt : String → String) (text : String) :
    List Chapter → Except Err (List (Nat × ℝ))
  | [] => .ok []
  | c :: rest =>
    match compute_sim nt c text with
    | .error e => .error e
    | .ok r =>
      match chapter_sims nt text rest with
      | .error e => .error e
      | .ok l => .ok ((c.number, r) :: l)

/-- Book.chapter_to_similarity: the chapter-to-ratio dict sorted from
the highest to the lowest ratio. -/
noncomputable def chapter_to_similarity (nt : String → String) (b : Book)
    (text : String) : Except Err (List (Nat × ℝ)) :=
  match chapter_sims nt text (b.chapters.map Prod.snd) with
  | .error e => .error e
  | .ok l => .ok (sort_dict (pyDict l))

/-- Bible.compute_book_to_similarity: the book is represented by the
first value of its sorted chapter-to-similarity dict (the highest
ratio); list(values)[0] on an empty dict raises IndexError. -/
noncomputable def compute_book_to_similarity (nt : String → String) (text : String)
    (b : Book) : Except Err (String × ℝ) :=
  match chapter_to_similarity nt b text with
  | .error e => .error e
  | .ok [] => .error .indexError
  | .ok (kv :: _) => .ok (b.name, kv.2)

/-- Sequential model of the pool.map fan-out of Bible.book_to_similarity:
the per-book results in book order, the first raised error propagated. -/
noncomputable def mapBooks (nt : String → String) (text : String) :
    List Book → Except Err (List (String × ℝ))
  | [] => .ok []
  | b :: rest =>
    match compute_book_to_similarity nt text b with
    | .error e => .error e
    | .ok kv =>
      match mapBooks nt text rest with
      | .error e => .error e
      | .ok l => .ok (kv :: l)

/-- Bible.book_to_similarity: merge the per-book singleton dicts with
dict(ChainMap(*res)) (keys in reversed list order, the value of the
earliest dict winning), sort from the highest to the lowest ratio,
normalize, and keep only the entries with a ratio strictly greater
than 0.0. -/
noncomputable def book_to_similarity (nt : String → String) (books : List Book)
    (text : String) : Except Err (List (String × ℝ)) :=
  match mapBooks nt text books with
  | .error e => .error e
  | .ok res =>
    .ok ((normalize (sort_dict (pyDict res.reverse))).filter
      fun kv => decide (0 < kv.2))

/-! Helper lemmas shared by several claims. -/

/-- Lookup of a key appended at the end of an association list in which
the key was absent. -/
theorem lookup_append_of_none {α β : Type} [BEq α] [LawfulBEq α]
    (l : List (α × β)) (k : α) (v : β) (h : l.lookup k = none) :
    (l ++ [(k, v)]).lookup k = some v := by
  induction l with
  | nil => simp [List.lookup]
  | cons kv rest ih =>
    rw [List.lookup] at h
    rw [List.cons_append, List.lookup]
    cases hk : (k == kv.1) with
    | true => rw [hk] at h; simp at h
    | false => rw [hk] at h; exact ih h

/-- Empty text produces no n-gram. -/
theorem docNgrams_empty : docNgrams "" = [] := by decide

/-- Count vector of the empty text is zero in every coordinate. -/
theorem gramCount_empty (g : String) : gramCount g "" = 0 := by
  rw [gramCount, docNgrams_empty]
  exact List.count_nil g

/-- Dot product with the all-zero count vector of the empty text. -/
theorem dotCount_empty_left (b : String) : dotCount "" b = 0 := by
  rw [dotCount]
  exact Finset.sum_eq_zero fun g _ => by rw [gramCount_empty g, Nat.zero_mul]

/-- Returned cosine values are nonnegative: the count vectors have no
negative coordinate. -/
theorem cosine_sim_nonneg (a b : String) (r : ℝ)
    (h : cosine_sim a b = Except.ok r) : 0 ≤ r := by
  rw [cosine_sim] at h
  split at h
  · exact absurd h (by simp)
  · rw [Except.ok.injEq] at h
    rw [← h]
    exact div_nonneg (Nat.cast_nonneg _)
      (mul_nonneg (Real.sqrt_nonneg _) (Real.sqrt_nonneg _))

/-- Cosine of a non-degenerate text with itself, at a concrete input
whose count vector is a standard basis vector. -/
theorem cosine_aabb_self : cosine_sim "aa bb" "aa bb" = Except.ok (1 : ℝ) := by
  rw [cosine_sim]
  rw [show lowerStr "aa bb" = "aa bb" from by decide]
  rw [if_neg (by decide), show dotCount "aa bb" "aa bb" = 1 from by decide,
    show sqNorm "aa bb" = 1 from by decide]
  norm_num [Real.sqrt_one]

/-- Claim C1 as stated is false: for an empty second text the joint
vocabulary is empty, so CountVectorizer raises ValueError and the
similarity of the empty string with it is not 0.0. -/
theorem claim_C1_counterexample :
    cosine_sim "" "" ≠ Except.ok (0 : ℝ) := by
  rw [cosine_sim, if_pos (by decide)]
  simp

/-- Claim C1 (amended): the similarity of the empty string with b is 0.0
whenever b contributes at least one n-gram (the all-zero-vector fallback
of the zero-norm guard); when the joint vocabulary is empty the call
raises ValueError instead of returning 0.0; every value the function
does return is a nonnegative real, never a NaN. -/
theorem claim_C1 :
    (∀ b : String,
      cosine_sim "" b =
        if vocab "" (lowerStr b) = ∅ then
          Except.error (Err.valueError "empty vocabulary")
        else Except.ok 0) ∧
    (∀ (a b : String) (r : ℝ), cosine_sim a b = Except.ok r → 0 ≤ r) := by
  constructor
  · intro b
    rw [cosine_sim]
    rw [show lowerStr "" = "" from rfl]
    by_cases h : vocab "" (lowerStr b) = ∅
    · rw [if_pos h, if_pos h]
    · rw [if_neg h, if_neg h, dotCount_empty_left]
      norm_num
  · exact cosine_sim_nonneg

/-- Witness for claim C1: the empty string against a two-token text
yields 0.0, and a returned value at a concrete input is nonnegative. -/
theorem claim_C1_witness :
    cosine_sim "" "ab cd" = Except.ok (0 : ℝ) ∧ (0 : ℝ) ≤ 1 := by
  constructor
  · rw [claim_C1.1 "ab cd", if_neg (by decide)]
  · exact claim_C1.2 "aa bb" "aa bb" 1 cosine_aabb_self

/-- Claim C8: cosine similarity is symmetric in its two texts, both in
the raised ValueError case and in the returned value. -/
theorem claim_C8 : ∀ a b : String, cosine_sim a b = cosine_sim b a := by
  intro a b
  have hv : vocab (lowerStr a) (lowerStr b) = vocab (lowerStr b) (lowerStr a) :=
    Finset.union_comm _ _
  have hd : dotCount (lowerStr a) (lowerStr b) = dotCount (lowerStr b) (lowerStr a) := by
    rw [dotCount, dotCount, hv]
    exact Finset.sum_congr rfl fun g _ => Nat.mul_comm _ _
  rw [cosine_sim, cosine_sim, hv, hd, mul_comm]

/-! Claim theorems for the data-model invariants. -/

/-- Claim C7: re-adding a verse number already present leaves the
chapter completely unchanged (first write wins), and requesting an
already present chapter number returns the existing chapter without
replacing it. -/
theorem claim_C7 :
    (∀ (c : Chapter) (v : Verse),
      (c.verses.lookup v.number).isSome → add_verse c v = c) ∧
    (∀ (b : Book) (n : Nat) (ch : Chapter),
      b.chapters.lookup n = some ch → b.chapter n = (ch, b)) := by
  constructor
  · intro c v h
    simp [add_verse, h]
  · intro b n ch h
    simp [Book.chapter, h]

/-- Witness for claim C7 at a chapter holding verse 1 and a book holding
chapter 1. -/
theorem claim_C7_witness :
    add_verse ⟨1, "EN", [(1, ⟨1, "aa bb", "EN"⟩)]⟩ ⟨1, "cc dd", "NL"⟩ =
      ⟨1, "EN", [(1, ⟨1, "aa bb", "EN"⟩)]⟩ ∧
    Book.chapter ⟨"genesis", "EN", [(1, ⟨1, "EN", []⟩)]⟩ 1 =
      (⟨1, "EN", []⟩, ⟨"genesis", "EN", [(1, ⟨1, "EN", []⟩)]⟩) :=
  ⟨claim_C7.1 ⟨1, "EN", [(1, ⟨1, "aa bb", "EN"⟩)]⟩ ⟨1, "cc dd", "NL"⟩ (by decide),
   claim_C7.2 ⟨"genesis", "EN", [(1, ⟨1, "EN", []⟩)]⟩ 1 ⟨1, "EN", []⟩ (by decide)⟩

/-- Claim C9: a chapter number absent from a book makes Book.chapter
create, store and return an empty chapter with that number and the
book's language, and a book name absent from a bible makes Bible.book
create, store and return an empty book with that name and the bible's
language; neither call fails. -/
theorem claim_C9 :
    (∀ (b : Book) (n : Nat),
      b.chapters.lookup n = none →
      b.chapter n = (⟨n, b.language, []⟩,
        { b with chapters := b.chapters ++ [(n, ⟨n, b.language, []⟩)] })) ∧
    (∀ (books : Books) (lang name : String),
      books.lookup name = none →
      bible_book books lang name =
        (⟨name, lang, []⟩, books ++ [(name, ⟨name, lang, []⟩)])) := by
  constructor
  · intro b n h
    simp [Book.chapter, h]
  · intro books lang name h
    simp [bible_book, h]

/-- Witness for claim C9 at a book without chapter 2 and a bible without
the book "exodus". -/
theorem claim_C9_witness :
    Book.chapter ⟨"genesis", "EN", [(1, ⟨1, "EN", []⟩)]⟩ 2 =
      (⟨2, "EN", []⟩,
       ⟨"genesis", "EN", [(1, ⟨1, "EN", []⟩), (2, ⟨2, "EN", []⟩)]⟩) ∧
    bible_book [] "EN" "exodus" = (⟨"exodus", "EN", []⟩, [("exodus", ⟨"exodus", "EN", []⟩)]) :=
  ⟨claim_C9.1 ⟨"genesis", "EN", [(1, ⟨1, "EN", []⟩)]⟩ 2 (by decide),
   claim_C9.2 [] "EN" "exodus" (by decide)⟩

/-- Claim C10: adding a verse whose number is absent stores a verse that
copies the argument's number and text but carries the chapter's
language, discarding the language of the argument. -/
theorem claim_C10 :
    ∀ (c : Chapter) (v : Verse),
      c.verses.lookup v.number = none →
      add_verse c v =
        { c with verses := c.verses ++ [(v.number, ⟨v.number, v.text, c.language⟩)] } ∧
      (add_verse c v).verses.lookup v.number = some ⟨v.number, v.text, c.language⟩ := by
  intro c v h
  have h1 : add_verse c v =
      { c with verses := c.verses ++ [(v.number, ⟨v.number, v.text, c.language⟩)] } := by
    simp [add_verse, h]
  refine ⟨h1, ?_⟩
  rw [h1]
  exact lookup_append_of_none c.verses v.number _ h

/-- Witness for claim C10: a Dutch-tagged verse added to an English
chapter is stored with the chapter's language. -/
theorem claim_C10_witness :
    add_verse ⟨1, "EN", []⟩ ⟨3, "aa bb", "NL"⟩ =
      ⟨1, "EN", [(3, ⟨3, "aa bb", "EN"⟩)]⟩ ∧
    (add_verse ⟨1, "EN", []⟩ ⟨3, "aa bb", "NL"⟩).verses.lookup 3 =
      some ⟨3, "aa bb", "EN"⟩ :=
  claim_C10 ⟨1, "EN", []⟩ ⟨3, "aa bb", "NL"⟩ (by decide)

/-- Claim C4: misc.normalize keeps the key sequence, returns the dict
unchanged when it has fewer than 10 entries or a zero value total, and
otherwise replaces every value by its share of the total rounded to 3
decimal places. -/
theorem claim_C4 :
    ∀ d : List (String × ℚ),
      ((normalize d).map Prod.fst = d.map Prod.fst) ∧
      (d.length < 10 → normalize d = d) ∧
      ((d.map Prod.snd).sum = 0 → normalize d = d) ∧
      ((d.map Prod.snd).sum ≠ 0 → ¬ d.length < 10 →
        normalize d = d.map fun kv =>
          (kv.1, roundTo3 (kv.2 / (d.map Prod.snd).sum))) := by
  intro d
  refine ⟨?_, ?_, ?_, ?_⟩
  · by_cases h : (d.map Prod.snd).sum = 0 ∨ d.length < 10
    · rw [normalize, if_pos h]
    · rw [normalize, if_neg h]
      simp [List.map_map, Function.comp_def]
  · intro h
    rw [normalize, if_pos (Or.inr h)]
  · intro h
    rw [normalize, if_pos (Or.inl h)]
  · intro h1 h2
    rw [normalize, if_neg (by simp [h1, h2])]

/-- Witness for claim C4 at a 3-entry dict (returned unchanged) and a
10-entry dict with value total 2 (every value divided by 2 and rounded,
here exactly). -/
theorem claim_C4_witness :
    normalize [("b1", (1 : ℚ)), ("b2", 2), ("b3", 3)] =
      [("b1", (1 : ℚ)), ("b2", 2), ("b3", 3)] ∧
    normalize [("b1", (1/5 : ℚ)), ("b2", 1/5), ("b3", 1/5), ("b4", 1/5),
        ("b5", 1/5), ("b6", 1/5), ("b7", 1/5), ("b8", 1/5), ("b9", 1/5),
        ("b10", 1/5)] =
      [("b1", (1/5 : ℚ)), ("b2", 1/5), ("b3", 1/5), ("b4", 1/5),
        ("b5", 1/5), ("b6", 1/5), ("b7", 1/5), ("b8", 1/5), ("b9", 1/5),
        ("b10", 1/5)].map (fun kv => (kv.1, roundTo3 (kv.2 / 2))) := by
  constructor
  · exact (claim_C4 [("b1", (1 : ℚ)), ("b2", 2), ("b3", 3)]).2.1 (by decide)
  · have h := (claim_C4 [("b1", (1/5 : ℚ)), ("b2", 1/5), ("b3", 1/5), ("b4", 1/5),
      ("b5", 1/5), ("b6", 1/5), ("b7", 1/5), ("b8", 1/5), ("b9", 1/5),
      ("b10", 1/5)]).2.2.2 (by norm_num) (by decide)
    rw [h]
    norm_num

/-! Lemmas on the corpus cache and the download loop. -/

/-- Overwriting the same key twice keeps only the last value. -/
theorem assocSet_assocSet {α β : Type} [BEq α] [LawfulBEq α]
    (c : List (α × β)) (k : α) (v w : β) :
    assocSet (assocSet c k v) k w = assocSet c k w := by
  induction c with
  | nil => simp [assocSet]
  | cons kv rest ih =>
    by_cases h : (kv.1 == k) = true
    · simp [assocSet, h]
    · simp [assocSet, h, ih]

/-- Lookup of a key right after writing it. -/
theorem lookup_assocSet_self {α β : Type} [BEq α] [LawfulBEq α]
    (c : List (α × β)) (k : α) (v : β) : (assocSet c k v).lookup k = some v := by
  induction c with
  | nil => simp [assocSet, List.lookup]
  | cons kv rest ih =>
    by_cases h : (kv.1 == k) = true
    · have heq : kv.1 = k := eq_of_beq h
      simp [assocSet, h, List.lookup, heq]
    · have hne : (k == kv.1) = false := by
        rw [beq_eq_false_iff_ne]
        intro hk
        exact h (by rw [hk]; exact beq_self_eq_true kv.1)
      simp [assocSet, h, List.lookup, hne, ih]

/-- Download loop aborting on its first book when every fetch of the
list fails with the same error: nothing is written to the cache. -/
theorem build_books_error_of_all (fetch : String → Except Err ChapterData)
    (lang version : String) (bs : List String) (books : Books) (cache : CorpusCache)
    (e : Err) (hne : bs ≠ []) (h : ∀ b ∈ bs, fetch b = .error e) :
    build_books fetch lang version bs books cache = (.error e, cache) := by
  cases bs with
  | nil => exact absurd rfl hne
  | cons b rest => simp [build_books, h b (List.mem_cons_self b rest)]

/-- Download loop with a failing book somewhere in the list: the result
is an error, and the cache ends up with the version key mapped to the
books populated from the successful prefix, or untouched when the very
first fetch fails. -/
theorem build_books_fail_spec (fetch : String → Except Err ChapterData)
    (lang version : String) :
    ∀ (bs : List String) (books : Books) (cache : CorpusCache),
      (∃ b ∈ bs, (fetch b).isOk = false) →
      (build_books fetch lang version bs books cache).1.isOk = false ∧
      (build_books fetch lang version bs books cache).2 =
        (if bs.takeWhile (fun b => (fetch b).isOk) = [] then cache
         else assocSet cache version
           (populate_list fetch lang (bs.takeWhile fun b => (fetch b).isOk) books)) := by
  intro bs
  induction bs with
  | nil => intro books cache h; simp at h
  | cons b rest ih =>
    intro books cache h
    cases hf : fetch b with
    | error e =>
      constructor
      · simp [build_books, hf, Except.isOk, Except.toBool]
      · simp [build_books, hf, List.takeWhile_cons, Except.isOk, Except.toBool]
    | ok d =>
      have hrest : ∃ b' ∈ rest, (fetch b').isOk = false := by
        rcases h with ⟨x, hx, hxf⟩
        rcases List.mem_cons.mp hx with hxb | hxr
        · rw [hxb, hf] at hxf; simp [Except.isOk, Except.toBool] at hxf
        · exact ⟨x, hxr, hxf⟩
      have hmain := ih (populate_book books lang b d)
        (assocSet cache version (populate_book books lang b d)) hrest
      have hstep :
          build_books fetch lang version (b :: rest) books cache =
          build_books fetch lang version rest (populate_book books lang b d)
            (assocSet cache version (populate_book books lang b d)) := by
        simp [build_books, hf]
      have htw : List.takeWhile (fun b => (fetch b).isOk) (b :: rest) =
          b :: List.takeWhile (fun b => (fetch b).isOk) rest := by
        simp [List.takeWhile_cons, hf, Except.isOk, Except.toBool]
      have hpop : populate_list fetch lang
            (b :: List.takeWhile (fun b => (fetch b).isOk) rest) books =
          populate_list fetch lang (List.takeWhile (fun b => (fetch b).isOk) rest)
            (populate_book books lang b d) := by
        simp [populate_list, getOk, hf]
      refine ⟨by rw [hstep]; exact hmain.1, ?_⟩
      rw [hstep, hmain.2, htw, if_neg (List.cons_ne_nil b _), hpop]
      by_cases hp : rest.takeWhile (fun b => (fetch b).isOk) = []
      · rw [if_pos hp, hp]
        simp [populate_list]
      · rw [if_neg hp, assocSet_assocSet]

/-- Claim C2 as stated is false: with a remote source that has "genesis"
but is missing "exodus", construction raises, yet the corpus cache keeps
a persisted entry under the version key whose book set is the strict,
non-empty subset belonging to just "genesis". -/
theorem claim_C2_counterexample :
    (bible_post_init c2fetch [] "kjv" "EN").1.isOk = false ∧
    ((bible_post_init c2fetch [] "kjv" "EN").2.lookup "kjv").map
      (fun bks => bks.map Prod.fst) = some ["genesis"] ∧
    "genesis" ∈ BOOKS ∧ "exodus" ∈ BOOKS ∧ ("exodus" : String) ∉ ["genesis"] := by
  decide

/-- Claim C2 (amended): when some canonical book fails to fetch,
construction raises an error; the corpus cache is left holding, under
the version key, exactly the books populated from the longest successful
prefix of the canonical list — so a partial, non-empty strict subset of
the canonical books can remain persisted — and only when the very first
fetch fails does the cache hold no entry under that version key. -/
theorem claim_C2 :
    ∀ (fetch : String → Except Err ChapterData) (cache : CorpusCache)
      (version lang : String),
      cache.lookup version = none →
      (∃ b ∈ BOOKS, (fetch b).isOk = false) →
      (bible_post_init fetch cache version lang).1.isOk = false ∧
      (bible_post_init fetch cache version lang).2.lookup version =
        (if BOOKS.takeWhile (fun b => (fetch b).isOk) = [] then none
         else some (populate_list fetch lang
           (BOOKS.takeWhile fun b => (fetch b).isOk) [])) := by
  intro fetch cache version lang hnone hfail
  have hpost : bible_post_init fetch cache version lang =
      build_books fetch lang version BOOKS [] cache := by
    rw [bible_post_init, hnone]
  have hspec := build_books_fail_spec fetch lang version BOOKS [] cache hfail
  refine ⟨by rw [hpost]; exact hspec.1, ?_⟩
  rw [hpost, hspec.2]
  by_cases hp : BOOKS.takeWhile (fun b => (fetch b).isOk) = []
  · rw [if_pos hp, if_pos hp]
    exact hnone
  · rw [if_neg hp, if_neg hp]
    exact lookup_assocSet_self cache version _

/-- Witness for claim C2 at the concrete genesis-only remote source. -/
theorem claim_C2_witness :
    (bible_post_init c2fetch [] "kjv" "EN").1.isOk = false ∧
    (bible_post_init c2fetch [] "kjv" "EN").2.lookup "kjv" =
      (if BOOKS.takeWhile (fun b => (c2fetch b).isOk) = [] then none
       else some (populate_list c2fetch "EN"
         (BOOKS.takeWhile fun b => (c2fetch b).isOk) [])) :=
  claim_C2 c2fetch [] "kjv" "EN" rfl ⟨"exodus", by decide, by decide⟩

/-- Claim C6: building a Bible for a version string unknown to the
remote source (every fetch strips to the "U" sentinel) raises
BibleNotFound, and no snapshot is written under that version key. -/
theorem claim_C6 :
    ∀ (fetch : String → Except Err ChapterData) (cache : CorpusCache)
      (version lang : String) (parse : String → Option ChapterData),
      cache.lookup version = none →
      (∀ b ∈ BOOKS, fetch b = retrieve_chapter_to_verse "(U);" parse) →
      (bible_post_init fetch cache version lang).1 =
        .error (.bibleNotFound "NULL result") ∧
      (bible_post_init fetch cache version lang).2.lookup version = none := by
  intro fetch cache version lang parse hnone hresp
  have hret : retrieve_chapter_to_verse "(U);" parse =
      .error (.bibleNotFound "NULL result") := by
    rw [retrieve_chapter_to_verse, if_pos (by decide)]
  have hb : ∀ b ∈ BOOKS, fetch b = .error (.bibleNotFound "NULL result") :=
    fun b hbm => (hresp b hbm).trans hret
  have hpost : bible_post_init fetch cache version lang =
      build_books fetch lang version BOOKS [] cache := by
    rw [bible_post_init, hnone]
  have hrun := build_books_error_of_all fetch lang version BOOKS [] cache
    (.bibleNotFound "NULL result") (by decide) hb
  rw [hpost, hrun]
  exact ⟨rfl, hnone⟩

/-- Witness for claim C6 at the all-unknown remote source. -/
theorem claim_C6_witness :
    (bible_post_init (fun _ => retrieve_chapter_to_verse "(U);" fun _ => none)
      [] "unknown" "EN").1 = .error (.bibleNotFound "NULL result") ∧
    (bible_post_init (fun _ => retrieve_chapter_to_verse "(U);" fun _ => none)
      [] "unknown" "EN").2.lookup "unknown" = none :=
  claim_C6 (fun _ => retrieve_chapter_to_verse "(U);" fun _ => none) []
    "unknown" "EN" (fun _ => none) rfl (fun _ _ => rfl)

/-! Lemmas on Python dict building, sorting and normalization, used by
the aggregator claims. -/

/-- Every entry of a dict write comes from the old dict or is the
written pair. -/
theorem mem_assocSet {α β : Type} [BEq α] [LawfulBEq α] :
    ∀ {d : List (α × β)} {k : α} {v : β} {x : α × β},
      x ∈ assocSet d k v → x ∈ d ∨ x = (k, v) := by
  intro d
  induction d with
  | nil =>
    intro k v x h
    right
    simpa [assocSet] using h
  | cons kv rest ih =>
    intro k v x h
    obtain ⟨k', v'⟩ := kv
    by_cases hb : (k' == k) = true
    · rw [show assocSet ((k', v') :: rest) k v = (k', v) :: rest from by
        simp [assocSet, hb]] at h
      rcases List.mem_cons.mp h with hx | hx
      · right; rw [hx, eq_of_beq hb]
      · left; exact List.mem_cons_of_mem _ hx
    · rw [show assocSet ((k', v') :: rest) k v = (k', v') :: assocSet rest k v from by
        simp [assocSet, hb]] at h
      rcases List.mem_cons.mp h with hx | hx
      · left; rw [hx]; exact List.mem_cons_self _ _
      · rcases ih hx with h1 | h1
        · left; exact List.mem_cons_of_mem _ h1
        · right; exact h1

/-- Every entry of a Python dict built from a pair list is one of the
listed pairs. -/
theorem mem_pyDict {α β : Type} [BEq α] [LawfulBEq α]
    {l : List (α × β)} {x : α × β} (h : x ∈ pyDict l) : x ∈ l := by
  suffices haux : ∀ (l acc : List (α × β)) (x : α × β),
      x ∈ l.foldl (fun d kv => assocSet d kv.1 kv.2) acc → x ∈ acc ∨ x ∈ l by
    rcases haux l [] x h with h1 | h1
    · exact absurd h1 (List.not_mem_nil x)
    · exact h1
  intro l
  induction l with
  | nil =>
    intro acc x h
    left
    simpa using h
  | cons kv rest ih =>
    intro acc x h
    rw [List.foldl_cons] at h
    rcases ih _ x h with h1 | h1
    · rcases mem_assocSet h1 with h2 | h2
      · left; exact h2
      · right; rw [h2]; exact List.mem_cons_self _ _
    · right; exact List.mem_cons_of_mem _ h1

/-- Writing an absent key appends the pair at the end. -/
theorem assocSet_of_not_mem {α β : Type} [BEq α] [LawfulBEq α] :
    ∀ {d : List (α × β)} {k : α} (v : β),
      (∀ kv ∈ d, kv.1 ≠ k) → assocSet d k v = d ++ [(k, v)] := by
  intro d
  induction d with
  | nil => intro k v _; simp [assocSet]
  | cons kv rest ih =>
    intro k v h
    obtain ⟨k', v'⟩ := kv
    have hne : (k' == k) = false :=
      beq_eq_false_iff_ne.mpr (h (k', v') (List.mem_cons_self _ _))
    rw [show assocSet ((k', v') :: rest) k v = (k', v') :: assocSet rest k v from by
      simp [assocSet, hne]]
    rw [ih v fun kv hkv => h kv (List.mem_cons_of_mem _ hkv)]
    rfl

/-- Building a Python dict from a pair list with pairwise distinct keys
returns the list itself. -/
theorem pyDict_eq_of_nodup {α β : Type} [BEq α] [LawfulBEq α] :
    ∀ {l : List (α × β)}, (l.map Prod.fst).Nodup → pyDict l = l := by
  suffices haux : ∀ (l acc : List (α × β)),
      (l.map Prod.fst).Nodup →
      (∀ kv ∈ l, ∀ kv' ∈ acc, kv'.1 ≠ kv.1) →
      l.foldl (fun d kv => assocSet d kv.1 kv.2) acc = acc ++ l by
    intro l h
    rw [pyDict, haux l [] h (by intro kv _ kv' h'; exact absurd h' (List.not_mem_nil _))]
    rfl
  intro l
  induction l with
  | nil => intro acc _ _; simp
  | cons kv rest ih =>
    intro acc hnd hdisj
    have hhead : kv.1 ∉ rest.map Prod.fst := by
      rw [List.map_cons, List.nodup_cons] at hnd
      exact hnd.1
    have hnd' : (rest.map Prod.fst).Nodup := by
      rw [List.map_cons, List.nodup_cons] at hnd
      exact hnd.2
    rw [List.foldl_cons,
      assocSet_of_not_mem kv.2 fun kv' h' => hdisj kv (List.mem_cons_self _ _) kv' h']
    have hdisj' : ∀ kv2 ∈ rest, ∀ kv' ∈ acc ++ [(kv.1, kv.2)], kv'.1 ≠ kv2.1 := by
      intro kv2 h2 kv' h'
      rcases List.mem_append.mp h' with ha | hb
      · exact hdisj kv2 (List.mem_cons_of_mem _ h2) kv' ha
      · have hkv' : kv' = (kv.1, kv.2) := by simpa using hb
        rw [hkv']
        intro hEq
        exact hhead (hEq ▸ List.mem_map_of_mem Prod.fst h2)
    rw [ih (acc ++ [(kv.1, kv.2)]) hnd' hdisj']
    simp

/-- Output of sort_dict is ordered from the highest to the lowest
value. -/
theorem sort_dict_sorted {α β : Type} [LinearOrder β] (d : List (α × β)) :
    (sort_dict d).Pairwise fun a b => b.2 ≤ a.2 := by
  have h := @List.sorted_mergeSort (α × β) (fun a b => decide (b.2 ≤ a.2))
    (fun a b c hab hbc => by
      rw [decide_eq_true_eq] at *
      exact le_trans hbc hab)
    (fun a b => by
      rcases le_total a.2 b.2 with h | h <;> simp [h])
    d
  exact h.imp fun hab => of_decide_eq_true hab

/-- Sorting a dict permutes its entries. -/
theorem sort_dict_perm {α β : Type} [LinearOrder β] (d : List (α × β)) :
    List.Perm (sort_dict d) d :=
  List.mergeSort_perm d _

/-- First entry of a descending list bounds every entry. -/
theorem pairwise_desc_head_max {α β : Type} [LinearOrder β] {kv : α × β}
    {t : List (α × β)} (h : (kv :: t).Pairwise fun a b => b.2 ≤ a.2) :
    ∀ x ∈ kv :: t, x.2 ≤ kv.2 := by
  intro x hx
  rcases List.mem_cons.mp hx with h1 | h1
  · rw [h1]
  · exact (List.pairwise_cons.mp h).1 x h1

/-- Rounding to 3 decimal places is monotone. -/
theorem roundTo3_mono {α : Type} [LinearOrderedField α] [FloorRing α]
    {x y : α} (h : x ≤ y) : roundTo3 x ≤ roundTo3 y := by
  rw [roundTo3, roundTo3]
  have h2 : round (x * 1000) ≤ round (y * 1000) := by
    rw [round_eq, round_eq]
    exact Int.floor_le_floor (by nlinarith)
  exact (div_le_div_iff_of_pos_right (by norm_num)).mpr (Int.cast_le.mpr h2)

/-- Normalization keeps a nonnegative dict sorted from the highest to
the lowest value: either it is the identity, or it divides by the
positive total and rounds, both monotone. -/
theorem normalize_pairwise {α : Type} [LinearOrderedField α] [FloorRing α]
    {d : List (String × α)} (hnn : ∀ kv ∈ d, 0 ≤ kv.2)
    (hp : d.Pairwise fun a b => b.2 ≤ a.2) :
    (normalize d).Pairwise fun a b => b.2 ≤ a.2 := by
  rw [normalize]
  split_ifs with hcond
  · exact hp
  · push_neg at hcond
    have hsum0 : (0 : α) ≤ (d.map Prod.snd).sum := by
      apply List.sum_nonneg
      intro x hx
      rcases List.mem_map.mp hx with ⟨kv, hkv, hx2⟩
      rw [← hx2]
      exact hnn kv hkv
    have hpos : 0 < (d.map Prod.snd).sum := lt_of_le_of_ne hsum0 (Ne.symm hcond.1)
    rw [List.pairwise_map]
    exact hp.imp fun hab =>
      roundTo3_mono ((div_le_div_iff_of_pos_right hpos).mpr hab)

/-! Lemmas on the similarity aggregation pipeline. -/

/-- Chapter similarity values are nonnegative cosine values. -/
theorem chapter_sims_nonneg (nt : String → String) (text : String) :
    ∀ (cs : List Chapter) (l : List (Nat × ℝ)),
      chapter_sims nt text cs = .ok l → ∀ kv ∈ l, 0 ≤ kv.2 := by
  intro cs
  induction cs with
  | nil =>
    intro l h kv hkv
    simp only [chapter_sims] at h
    rw [Except.ok.injEq] at h
    rw [← h] at hkv
    exact absurd hkv (List.not_mem_nil kv)
  | cons c rest ih =>
    intro l h kv hkv
    simp only [chapter_sims] at h
    cases hc : compute_sim nt c text with
    | error e => rw [hc] at h; exact absurd h (by simp)
    | ok r =>
      rw [hc] at h
      cases hr : chapter_sims nt text rest with
      | error e => rw [hr] at h; exact absurd h (by simp)
      | ok l2 =>
        rw [hr] at h
        rw [Except.ok.injEq] at h
        rw [← h] at hkv
        rcases List.mem_cons.mp hkv with h1 | h1
        · rw [h1]
          exact cosine_sim_nonneg _ _ r hc
        · exact ih l2 hr kv h1

/-- Keys of the chapter similarity list are the chapter numbers in
iteration order. -/
theorem chapter_sims_keys (nt : String → String) (text : String) :
    ∀ (cs : List Chapter) (l : List (Nat × ℝ)),
      chapter_sims nt text cs = .ok l →
      l.map Prod.fst = cs.map Chapter.number := by
  intro cs
  induction cs with
  | nil =>
    intro l h
    simp only [chapter_sims] at h
    rw [Except.ok.injEq] at h
    rw [← h]
    rfl
  | cons c rest ih =>
    intro l h
    simp only [chapter_sims] at h
    cases hc : compute_sim nt c text with
    | error e => rw [hc] at h; exact absurd h (by simp)
    | ok r =>
      rw [hc] at h
      cases hr : chapter_sims nt text rest with
      | error e => rw [hr] at h; exact absurd h (by simp)
      | ok l2 =>
        rw [hr] at h
        rw [Except.ok.injEq] at h
        rw [← h, List.map_cons, List.map_cons, ih l2 hr]

/-- Dissection of a successful compute_book_to_similarity call: the name
is the book's, and the score is the first value of the sorted
chapter-similarity dict. -/
theorem compute_book_ok (nt : String → String) (text : String) (b : Book)
    (name : String) (r : ℝ)
    (h : compute_book_to_similarity nt text b = .ok (name, r)) :
    name = b.name ∧ ∃ l kv t,
      chapter_sims nt text (b.chapters.map Prod.snd) = .ok l ∧
      sort_dict (pyDict l) = kv :: t ∧ r = kv.2 := by
  simp only [compute_book_to_similarity, chapter_to_similarity] at h
  cases hcs : chapter_sims nt text (b.chapters.map Prod.snd) with
  | error e => rw [hcs] at h; exact absurd h (by simp)
  | ok l =>
    rw [hcs] at h
    dsimp only at h
    cases hsd : sort_dict (pyDict l) with
    | nil => rw [hsd] at h; exact absurd h (by simp)
    | cons kv t =>
      rw [hsd] at h
      dsimp only at h
      rw [Except.ok.injEq, Prod.mk.injEq] at h
      exact ⟨h.1.symm, l, kv, t, rfl, hsd, h.2.symm⟩

/-- Score of a successful compute_book_to_similarity call is
nonnegative. -/
theorem compute_book_nonneg {nt : String → String} {text : String} {b : Book}
    {kv : String × ℝ} (h : compute_book_to_similarity nt text b = .ok kv) :
    0 ≤ kv.2 := by
  obtain ⟨name, r⟩ := kv
  obtain ⟨-, l, kv0, t, hcs, hsd, hr⟩ := compute_book_ok nt text b name r h
  have hm1 : kv0 ∈ sort_dict (pyDict l) := by
    rw [hsd]; exact List.mem_cons_self _ _
  have hm2 : kv0 ∈ l := mem_pyDict ((sort_dict_perm (pyDict l)).mem_iff.mp hm1)
  simpa [hr] using chapter_sims_nonneg nt text _ l hcs kv0 hm2

/-- Every merged entry of the pool.map result is a successful per-book
result. -/
theorem mapBooks_ok_mem (nt : String → String) (text : String) :
    ∀ (bs : List Book) (res : List (String × ℝ)),
      mapBooks nt text bs = .ok res →
      ∀ kv ∈ res, ∃ b ∈ bs, compute_book_to_similarity nt text b = .ok kv := by
  intro bs
  induction bs with
  | nil =>
    intro res h kv hkv
    simp only [mapBooks] at h
    rw [Except.ok.injEq] at h
    rw [← h] at hkv
    exact absurd hkv (List.not_mem_nil kv)
  | cons b rest ih =>
    intro res h kv hkv
    simp only [mapBooks] at h
    cases hb : compute_book_to_similarity nt text b with
    | error e => rw [hb] at h; exact absurd h (by simp)
    | ok kv0 =>
      rw [hb] at h
      cases hr : mapBooks nt text rest with
      | error e => rw [hr] at h; exact absurd h (by simp)
      | ok l2 =>
        rw [hr] at h
        rw [Except.ok.injEq] at h
        rw [← h] at hkv
        rcases List.mem_cons.mp hkv with h1 | h1
        · exact ⟨b, List.mem_cons_self _ _, by rw [h1]; exact hb⟩
        · obtain ⟨b2, hb2, hok⟩ := ih l2 hr kv h1
          exact ⟨b2, List.mem_cons_of_mem _ hb2, hok⟩

/-- Claim C3: a successful book_to_similarity result is sorted from the
highest to the lowest score and contains only strictly positive
scores. -/
theorem claim_C3 :
    ∀ (nt : String → String) (books : List Book) (text : String)
      (m : List (String × ℝ)),
      book_to_similarity nt books text = .ok m →
      (m.Pairwise fun a b => b.2 ≤ a.2) ∧ ∀ kv ∈ m, 0 < kv.2 := by
  intro nt books text m h
  simp only [book_to_similarity] at h
  cases hmb : mapBooks nt text books with
  | error e => rw [hmb] at h; exact absurd h (by simp)
  | ok res =>
    rw [hmb] at h
    rw [Except.ok.injEq] at h
    have hnnres : ∀ kv ∈ res, 0 ≤ kv.2 := by
      intro kv hkv
      obtain ⟨b, -, hb⟩ := mapBooks_ok_mem nt text books res hmb kv hkv
      exact compute_book_nonneg hb
    have hsorted : (sort_dict (pyDict res.reverse)).Pairwise
        fun a b : String × ℝ => b.2 ≤ a.2 := sort_dict_sorted _
    have hnnD : ∀ kv ∈ sort_dict (pyDict res.reverse), 0 ≤ kv.2 := by
      intro kv hkv
      have h1 : kv ∈ pyDict res.reverse :=
        (sort_dict_perm (pyDict res.reverse)).mem_iff.mp hkv
      exact hnnres kv (List.mem_reverse.mp (mem_pyDict h1))
    have hnorm := normalize_pairwise hnnD hsorted
    constructor
    · rw [← h]
      exact hnorm.filter _
    · intro kv hkv
      rw [← h] at hkv
      exact of_decide_eq_true (List.mem_filter.mp hkv).2

/-- Claim C5: under the chapter-number uniqueness invariant, a
successful per-book score is the greatest chapter-similarity ratio of
the book, and it is the first value of the sorted chapter-similarity
dict. -/
theorem claim_C5 :
    ∀ (nt : String → String) (b : Book) (text name : String) (r : ℝ)
      (l : List (Nat × ℝ)),
      ((b.chapters.map Prod.snd).map Chapter.number).Nodup →
      b.chapters ≠ [] →
      chapter_sims nt text (b.chapters.map Prod.snd) = .ok l →
      compute_book_to_similarity nt text b = .ok (name, r) →
      name = b.name ∧ r ∈ l.map Prod.snd ∧ (∀ v ∈ l.map Prod.snd, v ≤ r) ∧
      ∀ m, chapter_to_similarity nt b text = .ok m →
        (m.map Prod.snd).head? = some r := by
  intro nt b text name r l hnd hne hcs h
  obtain ⟨hname, l2, kv, t, hcs2, hsd, hr⟩ := compute_book_ok nt text b name r h
  rw [hcs2] at hcs
  rw [Except.ok.injEq] at hcs
  subst hcs
  have hkeys : (l2.map Prod.fst).Nodup := by
    rw [chapter_sims_keys nt text _ l2 hcs2]
    exact hnd
  have hpy : pyDict l2 = l2 := pyDict_eq_of_nodup hkeys
  have hperm : List.Perm (kv :: t) l2 := by
    rw [← hsd, hpy]
    exact sort_dict_perm l2
  have hsorted : (kv :: t).Pairwise fun a b : Nat × ℝ => b.2 ≤ a.2 := by
    rw [← hsd]
    exact sort_dict_sorted _
  have hkvmem : kv ∈ l2 := hperm.mem_iff.mp (List.mem_cons_self _ _)
  refine ⟨hname, ?_, ?_, ?_⟩
  · rw [hr]
    exact List.mem_map_of_mem Prod.snd hkvmem
  · intro v hv
    rcases List.mem_map.mp hv with ⟨x, hx, hvx⟩
    have hx2 : x ∈ kv :: t := hperm.mem_iff.mpr hx
    rw [← hvx, hr]
    exact pairwise_desc_head_max hsorted x hx2
  · intro m hm
    simp only [chapter_to_similarity] at hm
    rw [hcs2] at hm
    rw [Except.ok.injEq] at hm
    rw [← hm, hsd, List.map_cons, List.head?_cons, hr]

/-! Concrete evaluation of the pipeline for the claim witnesses. -/

/-- Cosine of two texts without any shared n-gram is 0. -/
theorem cosine_aabb_xxyy : cosine_sim "aa bb" "xx yy" = Except.ok (0 : ℝ) := by
  rw [cosine_sim]
  rw [show lowerStr "aa bb" = "aa bb" from by decide,
    show lowerStr "xx yy" = "xx yy" from by decide,
    if_neg (by decide), show dotCount "aa bb" "xx yy" = 0 from by decide]
  norm_num

/-- Chapter similarity list of the c3book fixture against its own
text. -/
theorem chapter_sims_c3book :
    chapter_sims id "aa bb" (c3book.chapters.map Prod.snd) =
      .ok [(1, (1 : ℝ))] := by
  have hct : chapterText ⟨1, "EN", [(1, ⟨1, "aa bb", "EN"⟩)]⟩ = "aa bb" := by decide
  simp only [c3book, List.map_cons, List.map_nil, chapter_sims, compute_sim, id_eq, hct,
    cosine_aabb_self]

/-- Full pipeline value of book_to_similarity on the c3book fixture. -/
theorem book_to_similarity_c3book :
    book_to_similarity id [c3book] "aa bb" = .ok [("genesis", (1 : ℝ))] := by
  have hcb : compute_book_to_similarity id "aa bb" c3book =
      .ok ("genesis", (1 : ℝ)) := by
    simp only [compute_book_to_similarity, chapter_to_similarity, chapter_sims_c3book]
    simp [sort_dict, pyDict, assocSet, c3book]
  simp only [book_to_similarity, mapBooks, hcb]
  simp only [List.reverse_cons, List.reverse_nil, List.nil_append]
  rw [show pyDict [("genesis", (1 : ℝ))] = [("genesis", (1 : ℝ))] from by
    simp [pyDict, assocSet]]
  rw [show sort_dict [("genesis", (1 : ℝ))] = [("genesis", (1 : ℝ))] from by
    simp [sort_dict]]
  rw [show normalize [("genesis", (1 : ℝ))] = [("genesis", (1 : ℝ))] from by
    rw [normalize, if_pos (Or.inr (by norm_num))]]
  simp only [List.filter, decide_eq_true_eq]
  norm_num

/-- Witness for claim C3 at the one-book fixture: the returned dict is
the sorted singleton with the strictly positive score 1. -/
theorem claim_C3_witness :
    book_to_similarity id [c3book] "aa bb" = .ok [("genesis", (1 : ℝ))] ∧
    (0 : ℝ) < 1 :=
  ⟨book_to_similarity_c3book,
   (claim_C3 id [c3book] "aa bb" [("genesis", (1 : ℝ))]
     book_to_similarity_c3book).2 ("genesis", (1 : ℝ)) (List.mem_cons_self _ _)⟩

/-- Chapter similarity list of the c5book fixture against a disjoint
query. -/
theorem chapter_sims_c5book :
    chapter_sims id "aa bb" (c5book.chapters.map Prod.snd) =
      .ok [(1, (0 : ℝ))] := by
  have hct : chapterText ⟨1, "EN", [(1, ⟨1, "xx yy", "EN"⟩)]⟩ = "xx yy" := by decide
  simp only [c5book, List.map_cons, List.map_nil, chapter_sims, compute_sim, id_eq, hct,
    cosine_aabb_xxyy]

/-- Per-book score of the c5book fixture. -/
theorem compute_book_c5book :
    compute_book_to_similarity id "aa bb" c5book = .ok ("genesis", (0 : ℝ)) := by
  simp only [compute_book_to_similarity, chapter_to_similarity, chapter_sims_c5book]
  simp [sort_dict, pyDict, assocSet, c5book]

/-- Witness for claim C5 at the one-chapter fixture: the score is the
name-tagged greatest (only) chapter ratio. -/
theorem claim_C5_witness :
    "genesis" = c5book.name ∧ (0 : ℝ) ∈ [(0 : ℝ)] ∧ (0 : ℝ) ≤ 0 := by
  have h := claim_C5 id c5book "aa bb" "genesis" 0 [(1, (0 : ℝ))]
    (by decide) (by decide) chapter_sims_c5book compute_book_c5book
  exact ⟨h.1, h.2.1, h.2.2.1 0 h.2.1⟩

end Ipybible
